import Mathlib

/-!
Verification development for the AutoArchitect backend
(`backend/main.py`, `backend/core/parser.py`, `backend/core/llm.py`).

The Python code is shallowly embedded: each Python function becomes a Lean
function over explicit representations of its inputs; the outcome of
fallible library calls (network, `ast.parse`, the generative-model call,
file-system removal) is passed in as data, and Python exceptions become
`Except` values.  The mutable per-job record of the in-memory job store is
modelled by replaying the worker's individual store writes, so that every
intermediate state a concurrent poll could observe is a value of the model.
-/

/-! ## String helpers (Python `in`, i.e. substring test) -/

/-- Is `needle` a prefix of `hay` (on the character lists)? -/
def charsPre : List Char → List Char → Bool
  | [], _ => true
  | _ :: _, [] => false
  | a :: as, b :: bs => a == b && charsPre as bs

/-- Does `needle` occur somewhere inside `hay` (character lists)? -/
def charsSub (needle : List Char) : List Char → Bool
  | [] => charsPre needle []
  | a :: rest => charsPre needle (a :: rest) || charsSub needle rest

/-- Python's `needle in hay` substring test on strings. -/
def pyContains (hay needle : String) : Bool :=
  charsSub needle.data hay.data

/-- Python's `s.endswith(suffix)`. -/
def strEndsWith (s suffix : String) : Bool :=
  charsPre suffix.data.reverse s.data.reverse

/-- Uppercase one ASCII letter, as Python's `str.upper` does on ASCII. -/
def charUpper (c : Char) : Char :=
  if 'a' ≤ c && c ≤ 'z' then Char.ofNat (c.toNat - 32) else c

/-- Lowercase one ASCII letter, as Python's `str.lower` does on ASCII. -/
def charLower (c : Char) : Char :=
  if 'A' ≤ c && c ≤ 'Z' then Char.ofNat (c.toNat + 32) else c

/-- Python's `s.upper()` (ASCII range; the code only uppercases the HTTP
verb names). -/
def strUpper (s : String) : String := String.mk (s.data.map charUpper)

/-- Python's `s.lower()` (ASCII range). -/
def strLower (s : String) : String := String.mk (s.data.map charLower)

/-! ## Data model: parser output records

`parse_python_file` / `parse_js_file` return Python dicts with different key
sets (a degraded record carries only `path` and `error`).  A dict is modelled
as a structure with `Option` fields: `none` means the key is absent. -/

structure FileRecord where
  language : Option String := none
  path : String
  imports : Option (List String) := none
  classes : Option (List String) := none
  functions : Option (List String) := none
  hints : Option (List String) := none
  error : Option String := none
  deriving Repr, DecidableEq

/-- `analyze_repo`'s return dict `{repo, files, structure_summary}`. -/
structure AnalyzeResult where
  repo : String
  files : List FileRecord
  structure_summary : String
  deriving Repr, DecidableEq

/-! ## Job store model (`backend/main.py`)

One job's record in the in-memory `jobs` dict.  `result`/`error` are `none`
while the corresponding key is absent (the poll response model fills them
with `null`). -/

structure ResultVal where
  graph : AnalyzeResult
  summary : String
  mermaid : String
  deriving Repr, DecidableEq

structure JobRec where
  status : String
  result : Option ResultVal
  error : Option String
  deriving Repr, DecidableEq

/-- The record stored by `analyze_repository` at submission (main.py:84-88). -/
def initialJob : JobRec := { status := "queued", result := none, error := none }

/-- One atomic store write: a single Python assignment to `jobs[job_id]`.
Each assignment statement in `process_repo_task` is one such write; the GIL
makes the single assignment atomic, but distinct assignments can be
interleaved by a concurrent poll. -/
inductive StoreWrite where
  | setStatus (s : String)
  | setResult (r : ResultVal)
  | setError (e : String)
  deriving Repr, DecidableEq

def applyWrite (j : JobRec) : StoreWrite → JobRec
  | .setStatus s => { j with status := s }
  | .setResult r => { j with result := some r }
  | .setError e => { j with error := some e }

/-- The sequence of store writes `process_repo_task` performs
(main.py:52-79), indexed by the outcome of the pipeline body
(`analyze_repo` + the two generator calls): on success it writes
`status := "processing"`, `status := "completed"`, then `result := ...`
(three separate statements, lines 54, 68, 69); on an exception it writes
`status := "processing"`, `status := "failed"`, then `error := str(e)`
(lines 54, 78, 79). -/
def workerWrites : Except String ResultVal → List StoreWrite
  | .ok r => [.setStatus "processing", .setStatus "completed", .setResult r]
  | .error e => [.setStatus "processing", .setStatus "failed", .setError e]

/-- The job record a poll (`get_job_status`, main.py:92-96) returns when it
runs after the worker's first `k` writes have landed. -/
def jobStateAt (p : Except String ResultVal) (k : Nat) : JobRec :=
  ((workerWrites p).take k).foldl applyWrite initialJob

/-- Rank of a status in the lifecycle order; both terminal states rank 2. -/
def statusRank (s : String) : Nat :=
  if s = "queued" then 0 else if s = "processing" then 1 else 2

/-- A tiny concrete pipeline result, used for concrete evaluations. -/
def sampleResult : ResultVal :=
  { graph := { repo := "https://github.com/o/r", files := [],
               structure_summary := "Analyzed 0 supported files." }
    summary := "s", mermaid := "m" }

lemma take_three_saturate (k : Nat) (a b c : StoreWrite) :
    List.take (k + 3) [a, b, c] = [a, b, c] := by
  simp [List.take_succ_cons]

lemma jobStatus_ok (r : ResultVal) (k : Nat) :
    (jobStateAt (.ok r) k).status =
      if k = 0 then "queued" else if k = 1 then "processing" else "completed" := by
  match k with
  | 0 => rfl
  | 1 => rfl
  | 2 => rfl
  | k + 3 =>
    simp only [jobStateAt, workerWrites, take_three_saturate]
    rfl

lemma jobStatus_err (e : String) (k : Nat) :
    (jobStateAt (.error e) k).status =
      if k = 0 then "queued" else if k = 1 then "processing" else "failed" := by
  match k with
  | 0 => rfl
  | 1 => rfl
  | 2 => rfl
  | k + 3 =>
    simp only [jobStateAt, workerWrites, take_three_saturate]
    rfl

/-- C1: at the interleaving point after the worker's write of
`status := "completed"` (main.py:68) but before its write of `result`
(main.py:69), a poll returns a record whose status is `completed` while its
result is still null; symmetrically a poll between lines 78 and 79 sees
`failed` with a null error message.  This refutes the claim that the two
writes form one atomic step. -/
theorem poll_between_status_and_result_write :
    (jobStateAt (.ok sampleResult) 2).status = "completed" ∧
    (jobStateAt (.ok sampleResult) 2).result = none ∧
    (jobStateAt (.error "boom") 2).status = "failed" ∧
    (jobStateAt (.error "boom") 2).error = none := by
  refine ⟨rfl, rfl, rfl, rfl⟩

/-- C2: across every pipeline outcome and every pair of poll instants
`i ≤ j`, the observed status never regresses (its lifecycle rank is
monotone), an observed `completed` is never followed by `failed` and vice
versa (at most one terminal value per job), and every observed status is one
of the four lifecycle values — so any sequence of successive polls walks
forward along `queued, processing, completed` or `queued, processing,
failed`. -/
theorem job_status_never_regresses (p : Except String ResultVal) (i j : Nat)
    (hij : i ≤ j) :
    statusRank (jobStateAt p i).status ≤ statusRank (jobStateAt p j).status ∧
    ((jobStateAt p i).status = "completed" → (jobStateAt p j).status ≠ "failed") ∧
    ((jobStateAt p i).status = "failed" → (jobStateAt p j).status ≠ "completed") ∧
    (jobStateAt p i).status ∈ (["queued", "processing", "completed", "failed"] : List String) := by
  rcases p with e | r
  · rw [jobStatus_err, jobStatus_err]
    rcases i with _ | _ | i <;> rcases j with _ | _ | j <;>
      simp_all [statusRank]
  · rw [jobStatus_ok, jobStatus_ok]
    rcases i with _ | _ | i <;> rcases j with _ | _ | j <;>
      simp_all [statusRank]

/-- Concrete instance of `job_status_never_regresses` at poll instants 1 ≤ 3
of a successfully completing job. -/
theorem job_status_never_regresses_witness :
    statusRank (jobStateAt (.ok sampleResult) 1).status ≤
      statusRank (jobStateAt (.ok sampleResult) 3).status ∧
    ((jobStateAt (.ok sampleResult) 1).status = "completed" →
      (jobStateAt (.ok sampleResult) 3).status ≠ "failed") ∧
    ((jobStateAt (.ok sampleResult) 1).status = "failed" →
      (jobStateAt (.ok sampleResult) 3).status ≠ "completed") ∧
    (jobStateAt (.ok sampleResult) 1).status ∈
      (["queued", "processing", "completed", "failed"] : List String) :=
  job_status_never_regresses (.ok sampleResult) 1 3 (by decide)

/-! ## Python AST model (`backend/core/parser.py`, `parse_python_file`)

Only the node shapes `parse_python_file` inspects are distinguished; every
other statement kind is `otherStmt`.  `ast.walk` visits every node of the
tree; the model enumerates the same set of nodes in depth-first preorder
(the collected facts do not depend on BFS-vs-DFS for the properties proved
here).  Note that Python's `ast.AsyncFunctionDef` is a distinct class, not a
subclass of `ast.FunctionDef`, so `async def` declarations are a separate
constructor. -/

inductive PyExpr where
  | name (id : String)
  | attr (value : PyExpr) (a : String)
  | call (func : PyExpr) (args : List PyExpr)
  | other
  deriving Repr

inductive PyNode where
  | importStmt (names : List String)
  | importFromStmt (module : Option String)
  | classDef (nm : String) (bases : List PyExpr) (body : List PyNode)
  | functionDef (nm : String) (decorators : List PyExpr) (body : List PyNode)
  | asyncFunctionDef (nm : String) (decorators : List PyExpr) (body : List PyNode)
  | otherStmt (body : List PyNode)
  deriving Repr

mutual

/-- All nodes of a tree rooted at `n` (the node itself plus descendants),
modelling the node set visited by `ast.walk`. -/
def walkAll : PyNode → List PyNode
  | .importStmt ns => [.importStmt ns]
  | .importFromStmt m => [.importFromStmt m]
  | .classDef nm bs b => .classDef nm bs b :: walkAllList b
  | .functionDef nm d b => .functionDef nm d b :: walkAllList b
  | .asyncFunctionDef nm d b => .asyncFunctionDef nm d b :: walkAllList b
  | .otherStmt b => .otherStmt b :: walkAllList b

def walkAllList : List PyNode → List PyNode
  | [] => []
  | n :: ns => walkAll n ++ walkAllList ns

end

/-- The HTTP verbs recognised by the decorator check (parser.py:61). -/
def httpVerbs : List String := ["get", "post", "put", "delete"]

/-- Import names contributed by one node (parser.py:42-47); an
`ast.ImportFrom` with `module = None` (relative import) contributes
nothing. -/
def nodeImports : PyNode → List String
  | .importStmt ns => ns
  | .importFromStmt (some m) => [m]
  | _ => []

def nodeClasses : PyNode → List String
  | .classDef nm _ _ => [nm]
  | _ => []

/-- Function names contributed by one node (parser.py:55-56): only
`ast.FunctionDef` matches the `isinstance` check, not async definitions. -/
def nodeFunctions : PyNode → List String
  | .functionDef nm _ _ => [nm]
  | _ => []

/-- The route hint one decorator of function `nm` yields (parser.py:58-62):
the decorator must be a call whose callee is an attribute access with an
HTTP-verb attribute name. -/
def decoratorHint (nm : String) : PyExpr → Option String
  | .call (.attr _ a) _ =>
      if httpVerbs.contains a then some ("Route: " ++ strUpper a ++ " " ++ nm) else none
  | _ => none

/-- The model hint one base class of `nm` yields (parser.py:51-54). -/
def baseHint (nm : String) : PyExpr → Option String
  | .name id => if id == "BaseModel" || id == "Model" then some ("Model: " ++ nm) else none
  | _ => none

/-- Framework hints contributed by one node. -/
def nodeHints : PyNode → List String
  | .classDef nm bases _ => bases.filterMap (baseHint nm)
  | .functionDef nm decs _ => decs.filterMap (decoratorHint nm)
  | _ => []

def collectImports (mod : List PyNode) : List String := (walkAllList mod).flatMap nodeImports
def collectClasses (mod : List PyNode) : List String := (walkAllList mod).flatMap nodeClasses
def collectFunctions (mod : List PyNode) : List String := (walkAllList mod).flatMap nodeFunctions
def collectHints (mod : List PyNode) : List String := (walkAllList mod).flatMap nodeHints

/-- `parse_python_file` (parser.py:26-71).  The file's text is represented
by the outcome of `ast.parse` on it: `none` when `ast.parse` raises
`SyntaxError`, otherwise the module's statement trees.  Python's
`list(set(imports))` deduplication is modelled by `eraseDups` (the set's
iteration order is unspecified in Python; no claim depends on it). -/
def parse_python_file (pyAst : Option (List PyNode)) (rel_path : String) : FileRecord :=
  match pyAst with
  | none => { path := rel_path, error := some "SyntaxError" }
  | some mod =>
      { language := some "python"
        path := rel_path
        imports := some (collectImports mod).eraseDups
        classes := some (collectClasses mod)
        functions := some (collectFunctions mod)
        hints := some (collectHints mod) }

/-- The view `parse_js_file` takes of a file: the matches of its two
`re.findall` patterns (the `import ... from "m"` form and the
`require("m")` form) and the raw text used for the substring hints. -/
structure JsView where
  importMatches : List String
  requireMatches : List String
  raw : String
  deriving Repr, DecidableEq

/-- `parse_js_file` (parser.py:73-98). -/
def parse_js_file (v : JsView) (rel_path : String) : FileRecord :=
  { language := some "javascript/typescript"
    path := rel_path
    imports := some ((v.importMatches ++ v.requireMatches).eraseDups)
    hints := some
      ((if pyContains (strLower v.raw) "react" then ["React Component?"] else []) ++
       (if pyContains (strLower v.raw) "express" then ["Express App?"] else [])) }

/-! ## Directory walk (`analyze_repo`, parser.py:105-133) -/

/-- A file's content as each extractor sees it: the `ast.parse` outcome when
dispatched as Python, and the regex/substring view when dispatched as JS. -/
structure FileContent where
  pyAst : Option (List PyNode)
  js : JsView
  deriving Repr

/-- One `(root, dirs, files)` triple yielded by `os.walk`, with the root
given relative to the temp directory (empty string for the top). -/
structure WalkEntry where
  relDir : String
  files : List (String × FileContent)
  deriving Repr

/-- `os.path.relpath(os.path.join(root, file), temp_dir)`. -/
def joinRel (relDir nm : String) : String :=
  if relDir = "" then nm else relDir ++ "/" ++ nm

/-- The absolute root path `os.walk` yields for a directory. -/
def absDir (tempDir relDir : String) : String :=
  if relDir = "" then tempDir else tempDir ++ "/" ++ relDir

/-- The extension dispatch of the walk loop (parser.py:120-123): `.py` files
go to `parse_python_file`, `.js/.jsx/.ts/.tsx` files to `parse_js_file`,
anything else is skipped. -/
def dispatchRecord (relDir nm : String) (c : FileContent) : Option FileRecord :=
  if strEndsWith nm ".py" then some (parse_python_file c.pyAst (joinRel relDir nm))
  else if strEndsWith nm ".js" || strEndsWith nm ".jsx" ||
      strEndsWith nm ".ts" || strEndsWith nm ".tsx" then
    some (parse_js_file c.js (joinRel relDir nm))
  else none

/-- The extensions the walk records (dispatch allow-list). -/
def supportedSourceExt (nm : String) : Bool :=
  strEndsWith nm ".py" || strEndsWith nm ".js" || strEndsWith nm ".jsx" ||
    strEndsWith nm ".ts" || strEndsWith nm ".tsx"

/-- The walk loop of `analyze_repo` (parser.py:111-124): every root whose
absolute path contains the substring `".git"` is skipped wholesale
(`if ".git" in root: continue`); files of other roots are dispatched by
extension. -/
def analyzeWalk (tempDir : String) (walk : List WalkEntry) : List FileRecord :=
  walk.flatMap fun en =>
    if pyContains (absDir tempDir en.relDir) ".git" then []
    else en.files.filterMap fun fc => dispatchRecord en.relDir fc.1 fc.2

/-- `analyze_repo`'s successful return value (parser.py:129-133). -/
def analyze_repo (repoUrl tempDir : String) (walk : List WalkEntry) : AnalyzeResult :=
  { repo := repoUrl
    files := analyzeWalk tempDir walk
    structure_summary :=
      "Analyzed " ++ toString (analyzeWalk tempDir walk).length ++ " supported files." }

/-! ## Lemmas about the walk snapshot -/

lemma parse_python_file_path (o : Option (List PyNode)) (p : String) :
    (parse_python_file o p).path = p := by
  cases o <;> rfl

lemma parse_js_file_path (v : JsView) (p : String) :
    (parse_js_file v p).path = p := rfl

lemma mem_analyzeWalk_iff (tempDir : String) (walk : List WalkEntry) (rec : FileRecord) :
    rec ∈ analyzeWalk tempDir walk ↔
      ∃ en ∈ walk, pyContains (absDir tempDir en.relDir) ".git" = false ∧
        ∃ fc ∈ en.files, dispatchRecord en.relDir fc.1 fc.2 = some rec := by
  unfold analyzeWalk
  rw [List.mem_flatMap]
  constructor
  · rintro ⟨en, hen, hrec⟩
    by_cases h : pyContains (absDir tempDir en.relDir) ".git" = true
    · simp [h] at hrec
    · rw [if_neg (by simpa using h)] at hrec
      rcases List.mem_filterMap.mp hrec with ⟨fc, hfc, hd⟩
      exact ⟨en, hen, by simpa using h, fc, hfc, hd⟩
  · rintro ⟨en, hen, hgit, fc, hfc, hd⟩
    refine ⟨en, hen, ?_⟩
    rw [if_neg (by simp [hgit])]
    exact List.mem_filterMap.mpr ⟨fc, hfc, hd⟩

lemma dispatchRecord_of_supported (relDir nm : String) (c : FileContent)
    (h : supportedSourceExt nm = true) :
    ∃ rec, dispatchRecord relDir nm c = some rec ∧ rec.path = joinRel relDir nm := by
  unfold dispatchRecord
  cases hpy : strEndsWith nm ".py" with
  | true =>
    exact ⟨parse_python_file c.pyAst (joinRel relDir nm), by simp, parse_python_file_path _ _⟩
  | false =>
    have hjs : (strEndsWith nm ".js" || strEndsWith nm ".jsx" || strEndsWith nm ".ts" ||
        strEndsWith nm ".tsx") = true := by
      unfold supportedSourceExt at h
      rw [hpy] at h
      simpa using h
    exact ⟨parse_js_file c.js (joinRel relDir nm), by simp [hjs], parse_js_file_path _ _⟩

lemma dispatchRecord_sound (relDir nm : String) (c : FileContent) (rec : FileRecord)
    (h : dispatchRecord relDir nm c = some rec) :
    supportedSourceExt nm = true ∧ rec.path = joinRel relDir nm := by
  unfold dispatchRecord at h
  by_cases hpy : strEndsWith nm ".py" = true
  · rw [if_pos hpy] at h
    refine ⟨by unfold supportedSourceExt; rw [hpy]; simp, ?_⟩
    cases h
    exact parse_python_file_path _ _
  · rw [if_neg hpy] at h
    have hpy' : strEndsWith nm ".py" = false := Bool.eq_false_iff.mpr hpy
    by_cases hjs : (strEndsWith nm ".js" || strEndsWith nm ".jsx" || strEndsWith nm ".ts" ||
        strEndsWith nm ".tsx") = true
    · rw [if_pos hjs] at h
      refine ⟨by unfold supportedSourceExt; rw [hpy']; simpa using hjs, ?_⟩
      cases h
      exact parse_js_file_path _ _
    · rw [if_neg hjs] at h
      exact Option.noConfusion h

/-- C10 (amended): a file of the cloned tree is recorded in the snapshot iff
its name has a supported source extension AND the walked root path of its
directory does not contain the substring `".git"`.  The substring test is
what the source uses (`if ".git" in root`), so it excludes the `.git`
metadata directory but also any other directory whose path contains
`".git"`, e.g. `.github`. -/
theorem walk_snapshot_membership (tempDir : String) (walk : List WalkEntry) :
    (∀ en ∈ walk, ∀ fc ∈ en.files, supportedSourceExt (Prod.fst fc) = true →
      pyContains (absDir tempDir en.relDir) ".git" = false →
      ∃ rec ∈ analyzeWalk tempDir walk, rec.path = joinRel en.relDir fc.1) ∧
    (∀ rec ∈ analyzeWalk tempDir walk, ∃ en ∈ walk, ∃ fc ∈ en.files,
      supportedSourceExt (Prod.fst fc) = true ∧
      pyContains (absDir tempDir en.relDir) ".git" = false ∧
      rec.path = joinRel en.relDir fc.1) := by
  constructor
  · rintro en hen ⟨nm, c⟩ hfc hext hgit
    rcases dispatchRecord_of_supported en.relDir nm c hext with ⟨rec, hd, hp⟩
    exact ⟨rec, (mem_analyzeWalk_iff _ _ _).mpr ⟨en, hen, hgit, ⟨(nm, c), hfc, hd⟩⟩, hp⟩
  · intro rec hrec
    rcases (mem_analyzeWalk_iff _ _ _).mp hrec with ⟨en, hen, hgit, fc, hfc, hd⟩
    rcases dispatchRecord_sound en.relDir fc.1 fc.2 rec hd with ⟨hext, hp⟩
    exact ⟨en, hen, fc, hfc, hext, hgit, hp⟩

/-- A syntactically valid, empty Python file. -/
def emptyPyContent : FileContent :=
  { pyAst := some [], js := { importMatches := [], requireMatches := [], raw := "" } }

/-- A cloned tree holding one supported-extension file `.github/deploy.py`
inside the (non-version-control) `.github` directory. -/
def githubWorkflowWalk : List WalkEntry :=
  [{ relDir := "", files := [] },
   { relDir := ".github", files := [("deploy.py", emptyPyContent)] }]

/-- C10 counterexample: `.github/deploy.py` has a supported extension and
does not lie under version-control metadata, yet the snapshot is empty,
because the root path `…/.github` contains `".git"` as a substring and the
walk skips the whole directory. -/
theorem dot_github_file_skipped_cex :
    analyzeWalk "/tmp/autoarchitect_k" githubWorkflowWalk = [] ∧
    supportedSourceExt "deploy.py" = true ∧
    pyContains "/tmp/autoarchitect_k/.github" ".git" = true := by
  refine ⟨rfl, by rfl, by rfl⟩

/-- Concrete instance of `walk_snapshot_membership`: a top-level `app.py` in
a clean temp directory is recorded under its relative path. -/
theorem walk_snapshot_membership_witness :
    ∃ rec ∈ analyzeWalk "/tmp/autoarchitect_m"
      [{ relDir := "", files := [("app.py", emptyPyContent)] }],
      rec.path = joinRel "" "app.py" :=
  (walk_snapshot_membership "/tmp/autoarchitect_m"
      [{ relDir := "", files := [("app.py", emptyPyContent)] }]).1
    { relDir := "", files := [("app.py", emptyPyContent)] }
    (List.mem_singleton.mpr rfl) ("app.py", emptyPyContent)
    (List.mem_singleton.mpr rfl) (by rfl) (by rfl)

/-- C4: a Python file on which `ast.parse` raises a syntax error is mapped —
without raising, `parse_python_file` is total — to a record carrying only
the file's path and the `"SyntaxError"` marker (every fact field absent);
such a record is still included in the walk snapshot; and the worker still
drives a job whose pipeline succeeds to `completed` with its result. -/
theorem syntax_error_degraded_record (relp tempDir : String) (walk : List WalkEntry)
    (en : WalkEntry) (nm : String) (c : FileContent)
    (hen : en ∈ walk) (hfc : (nm, c) ∈ en.files) (hpy : strEndsWith nm ".py" = true)
    (hbad : c.pyAst = none)
    (hroot : pyContains (absDir tempDir en.relDir) ".git" = false) :
    parse_python_file none relp =
      { language := none, path := relp, imports := none, classes := none,
        functions := none, hints := none, error := some "SyntaxError" } ∧
    ({ path := joinRel en.relDir nm, error := some "SyntaxError" } : FileRecord) ∈
      analyzeWalk tempDir walk ∧
    (∀ r : ResultVal, (jobStateAt (.ok r) 3).status = "completed" ∧
      (jobStateAt (.ok r) 3).result = some r) := by
  refine ⟨rfl, ?_, fun r => ⟨rfl, rfl⟩⟩
  apply (mem_analyzeWalk_iff _ _ _).mpr
  refine ⟨en, hen, hroot, (nm, c), hfc, ?_⟩
  unfold dispatchRecord
  rw [if_pos hpy, hbad]
  rfl

/-- A Python file whose `ast.parse` raises `SyntaxError`. -/
def brokenPyContent : FileContent :=
  { pyAst := none, js := { importMatches := [], requireMatches := [], raw := "" } }

def brokenWalkEntry : WalkEntry :=
  { relDir := "src", files := [("broken.py", brokenPyContent)] }

/-- Concrete instance of `syntax_error_degraded_record` for
`src/broken.py`. -/
theorem syntax_error_degraded_record_witness :
    parse_python_file none "broken.py" =
      { language := none, path := "broken.py", imports := none, classes := none,
        functions := none, hints := none, error := some "SyntaxError" } ∧
    ({ path := "src/broken.py", error := some "SyntaxError" } : FileRecord) ∈
      analyzeWalk "/tmp/autoarchitect_w" [brokenWalkEntry] ∧
    (∀ r : ResultVal, (jobStateAt (.ok r) 3).status = "completed" ∧
      (jobStateAt (.ok r) 3).result = some r) :=
  syntax_error_degraded_record "broken.py" "/tmp/autoarchitect_w" [brokenWalkEntry]
    brokenWalkEntry "broken.py" brokenPyContent (List.mem_singleton.mpr rfl)
    (List.mem_singleton.mpr rfl) (by rfl) rfl (by rfl)

/-- A module consisting of one `async def` route handler, as FastAPI apps
(including this repository's own `main.py`) typically contain. -/
def asyncRouteModule : List PyNode :=
  [.asyncFunctionDef "read_root" [.call (.attr (.name "app") "get") []] []]

/-- C7 counterexample: an `async def` function declaration decorated with
`@app.get(...)` is neither collected into the record's function list nor
given a route hint, because Python's `ast.AsyncFunctionDef` does not satisfy
the `isinstance(node, ast.FunctionDef)` check (parser.py:55). -/
theorem async_function_not_collected_cex :
    (parse_python_file (some asyncRouteModule) "main.py").functions = some [] ∧
    (parse_python_file (some asyncRouteModule) "main.py").hints = some [] :=
  ⟨rfl, rfl⟩

/-- C7 (amended): every synchronous (`def`) function declaration anywhere in
the module is collected into the record's function list, every collected
name comes from such a declaration, and for each synchronous function
carrying a decorator that is a call on an attribute named
get/post/put/delete the record contains exactly the hint
`"Route: <VERB> <name>"` with the verb uppercased; `async def` declarations
are not collected (see the counterexample). -/
theorem function_collection_route_hints (mod : List PyNode) (path nm : String)
    (decs : List PyExpr) (body : List PyNode) :
    (PyNode.functionDef nm decs body ∈ walkAllList mod →
      nm ∈ (parse_python_file (some mod) path).functions.getD []) ∧
    (∀ nm', nm' ∈ (parse_python_file (some mod) path).functions.getD [] →
      ∃ decs' body', PyNode.functionDef nm' decs' body' ∈ walkAllList mod) ∧
    (PyNode.functionDef nm decs body ∈ walkAllList mod →
      ∀ obj args verb, PyExpr.call (PyExpr.attr obj verb) args ∈ decs →
        httpVerbs.contains verb = true →
        ("Route: " ++ strUpper verb ++ " " ++ nm) ∈
          (parse_python_file (some mod) path).hints.getD []) := by
  refine ⟨?_, ?_, ?_⟩
  · intro hmem
    show nm ∈ collectFunctions mod
    exact List.mem_flatMap.mpr ⟨_, hmem, by simp [nodeFunctions]⟩
  · intro nm' h
    have h' : nm' ∈ collectFunctions mod := h
    rcases List.mem_flatMap.mp h' with ⟨node, hnode, hin⟩
    cases node with
    | importStmt ns => simp [nodeFunctions] at hin
    | importFromStmt m => simp [nodeFunctions] at hin
    | classDef a b c => simp [nodeFunctions] at hin
    | functionDef f d b =>
      simp only [nodeFunctions, List.mem_singleton] at hin
      subst hin
      exact ⟨d, b, hnode⟩
    | asyncFunctionDef a b c => simp [nodeFunctions] at hin
    | otherStmt b => simp [nodeFunctions] at hin
  · intro hmem obj args verb hdec hverb
    have hv : verb ∈ httpVerbs := by simpa using hverb
    show _ ∈ collectHints mod
    refine List.mem_flatMap.mpr ⟨_, hmem, ?_⟩
    show _ ∈ (decs.filterMap (decoratorHint nm))
    exact List.mem_filterMap.mpr ⟨_, hdec, by simp [decoratorHint, hv]⟩

/-- A module with one synchronous decorated route handler. -/
def syncRouteModule : List PyNode :=
  [.functionDef "create_item" [.call (.attr (.name "router") "post") []] []]

/-- Concrete instance of `function_collection_route_hints`:
`def create_item` decorated `@router.post(...)` is collected and yields
`"Route: POST create_item"`. -/
theorem function_collection_route_hints_witness :
    "create_item" ∈ (parse_python_file (some syncRouteModule) "api.py").functions.getD [] ∧
    "Route: POST create_item" ∈
      (parse_python_file (some syncRouteModule) "api.py").hints.getD [] := by
  have h := function_collection_route_hints syncRouteModule "api.py" "create_item"
    [.call (.attr (.name "router") "post") []] []
  have hmem : PyNode.functionDef "create_item"
      [.call (.attr (.name "router") "post") []] [] ∈ walkAllList syncRouteModule := by
    simp [syncRouteModule, walkAllList, walkAll]
  have h3 := h.2.2 hmem (.name "router") [] "post" (List.mem_singleton.mpr rfl) (by rfl)
  have hs : ("Route: " ++ strUpper "post" ++ " " ++ "create_item") = "Route: POST create_item" := by
    decide
  exact ⟨h.1 hmem, hs ▸ h3⟩

/-! ## Narrative generator (`backend/core/llm.py`) -/

/-- Does a primary-model error message trigger the fallback attempt
(llm.py:37): `"404" in msg or "not found" in msg.lower()`. -/
def fallbackTriggered (msg : String) : Bool :=
  pyContains msg "404" || pyContains (strLower msg) "not found"

/-- `call_gemini_with_fallback` (llm.py:31-47), over the outcomes of the
primary-model call and of the (at most one) fallback-model call.  The
second component counts the fallback attempts made.  On a double failure
the original error is re-raised (llm.py:46). -/
def call_gemini_with_fallback (primary fallback : Except String String) :
    Except String String × Nat :=
  match primary with
  | .ok t => (.ok t, 0)
  | .error e =>
    if fallbackTriggered e then
      match fallback with
      | .ok t => (.ok t, 1)
      | .error _ => (.error e, 1)
    else (.error e, 0)

inductive Provider where
  | gemini
  | openai
  deriving Repr, DecidableEq

/-- The provider call inside the `try` of each generator function: Gemini
goes through `call_gemini_with_fallback` (llm.py:81,126), OpenAI is a
single chat call whose outcome is a parameter. -/
def llmCall (prov : Provider) (primary fallback openaiResp : Except String String) :
    Except String String :=
  match prov with
  | .gemini => (call_gemini_with_fallback primary fallback).1
  | .openai => openaiResp

/-- A record as the prompt-building loop reads it: `content := none` models
a dict without a `content` key. -/
structure LlmFileEntry where
  path : String
  content : Option String
  deriving Repr, DecidableEq

/-- The prompt-context loop (llm.py:60-63): `f['content']` raises
`KeyError` at the first record without a `content` key.  This loop runs
BEFORE the `try` that guards the provider call, so its exception escapes
the generator function. -/
def buildFileContext : List LlmFileEntry → Except String String
  | [] => .ok ""
  | e :: rest =>
    match e.content with
    | none => .error "KeyError: content"
    | some ctext =>
      match buildFileContext rest with
      | .ok srest => .ok ("File: " ++ e.path ++ "\n```\n" ++ ctext ++ "\n```\n\n" ++ srest)
      | .error er => .error er

/-- llm.py:55 — the summary placeholder when no API key is configured. -/
def mockNoKeySummary : String :=
  "## Analysis Simulation (Fallback)\n\n**Note:** Real-time generation failed (Missing API Keys). Showing a simulated summary.\n\nPlease set `GEMINI_API_KEY` or `OPENAI_API_KEY` in `.env`."

/-- llm.py:95 — the summary placeholder returned when the provider call
raises inside the `try`. -/
def summaryErrorFallback (e : String) : String :=
  "## Analysis Simulation (Fallback)\n\n**Note:** Real-time generation failed. Showing a simulated summary.\n\nError details: " ++ e

/-- `get_mock_mermaid` (llm.py:150-167). -/
def get_mock_mermaid : String :=
  "graph TD;\n    subgraph \"Simulated Architecture\"\n        Client[Client / Frontend] --> API[API Gateway];\n        API --> ServiceA[Auth Service];\n        API --> ServiceB[Core Logic];\n        ServiceB --> DB[(Database)];\n        ServiceA --> Cache[(Redis)];\n        \n        classDef default fill:#f9f9f9,stroke:#333,stroke-width:2px;\n        classDef db fill:#e1f5fe,stroke:#0288d1;\n        class DB,Cache db;\n    end\n    \n    note right of API\n        Live generation failed.\n        Showing placebo structure.\n    end"

/-- Python whitespace for `str.strip()`. -/
def isPySpace (c : Char) : Bool :=
  c == ' ' || c == '\t' || c == '\n' || c == '\r' || c == '\x0b' || c == '\x0c'

def dropLeadingSpace : List Char → List Char
  | [] => []
  | c :: cs => if isPySpace c then dropLeadingSpace cs else c :: cs

/-- Python's `s.strip()`. -/
def pyStrip (s : String) : String :=
  String.mk (dropLeadingSpace (dropLeadingSpace s.data).reverse).reverse

/-- The response cleanup of `generate_mermaid` (llm.py:139-144): extract the
fenced block.  Under each guard the corresponding `split` has at least two
pieces, so Python's `[1]`/`[0]` indexing never raises and `getD` models it
exactly. -/
def cleanupMermaid (content : String) : String :=
  if pyContains content "```mermaid" then
    pyStrip ((((content.splitOn "```mermaid").getD 1 "").splitOn "```").getD 0 "")
  else if pyContains content "```" then
    pyStrip ((((content.splitOn "```").getD 1 "").splitOn "```").getD 0 "")
  else content

/-- `generate_architecture_summary` (llm.py:49-95).  `prov = none` models no
API key configured (llm.py:53-55).  The prompt truncation `[:50000]`
affects only the transmitted prompt, not the modelled outcome.  The
function returns `.error` only when it raises, which can happen only in the
prompt-building loop (outside the `try`). -/
def generate_architecture_summary (prov : Option Provider) (files : List LlmFileEntry)
    (primary fallback openaiResp : Except String String) : Except String String :=
  match prov with
  | none => .ok mockNoKeySummary
  | some p =>
    match buildFileContext files with
    | .error e => .error e
    | .ok _ =>
      match llmCall p primary fallback openaiResp with
      | .ok t => .ok t
      | .error e => .ok (summaryErrorFallback e)

/-- `generate_mermaid` (llm.py:97-148). -/
def generate_mermaid (prov : Option Provider) (files : List LlmFileEntry)
    (primary fallback openaiResp : Except String String) : Except String String :=
  match prov with
  | none => .ok get_mock_mermaid
  | some p =>
    match buildFileContext files with
    | .error e => .error e
    | .ok _ =>
      match llmCall p primary fallback openaiResp with
      | .ok content => .ok (cleanupMermaid content)
      | .error _ => .ok get_mock_mermaid

/-- The entries the prompt loop reads from `analyze_repo`'s output: none of
the records produced by `parse_python_file`/`parse_js_file` carries a
`content` key. -/
def toLlmEntries (files : List FileRecord) : List LlmFileEntry :=
  files.map fun r => { path := r.path, content := none }

/-- The body of `process_repo_task`'s `try` block (main.py:54-66): analyze,
then the two generator calls; any escaping exception drives the job to
`failed`. -/
def runPipeline (analyzeOut : Except String AnalyzeResult) (prov : Option Provider)
    (primary fallback openaiResp : Except String String) : Except String ResultVal :=
  match analyzeOut with
  | .error e => .error e
  | .ok g =>
    match generate_architecture_summary prov (toLlmEntries g.files) primary fallback openaiResp with
    | .error e => .error e
    | .ok summary =>
      match generate_mermaid prov (toLlmEntries g.files) primary fallback openaiResp with
      | .error e => .error e
      | .ok mer => .ok { graph := g, summary := summary, mermaid := mer }

/-- C5: the primary model is attempted first; the fallback model is
attempted exactly once, and only when the primary's error message contains
"404" or (case-insensitively) "not found"; and when both attempts fail the
surfaced error is the original primary-model error, not the fallback's. -/
theorem gemini_fallback_precedence (primary fallback : Except String String) :
    (∀ t, primary = .ok t → call_gemini_with_fallback primary fallback = (.ok t, 0)) ∧
    (∀ e, primary = .error e → fallbackTriggered e = false →
      call_gemini_with_fallback primary fallback = (.error e, 0)) ∧
    (∀ e, primary = .error e → fallbackTriggered e = true →
      (call_gemini_with_fallback primary fallback).2 = 1 ∧
      (∀ t, fallback = .ok t → (call_gemini_with_fallback primary fallback).1 = .ok t) ∧
      (∀ e2, fallback = .error e2 →
        (call_gemini_with_fallback primary fallback).1 = .error e)) := by
  refine ⟨?_, ?_, ?_⟩
  · rintro t rfl
    rfl
  · rintro e rfl hf
    simp [call_gemini_with_fallback, hf]
  · rintro e rfl hf
    refine ⟨?_, ?_, ?_⟩
    · cases fallback <;> simp [call_gemini_with_fallback, hf]
    · rintro t rfl
      simp [call_gemini_with_fallback, hf]
    · rintro e2 rfl
      simp [call_gemini_with_fallback, hf]

/-- Concrete instance of `gemini_fallback_precedence`: a 404 primary error
triggers one fallback attempt and, with the fallback failing too, the
returned error is the primary's. -/
theorem gemini_fallback_precedence_witness :
    (call_gemini_with_fallback (.error "404 model not supported")
        (.error "fallback broke")).1 = .error "404 model not supported" ∧
    (call_gemini_with_fallback (.error "404 model not supported")
        (.error "fallback broke")).2 = 1 := by
  have h := (gemini_fallback_precedence (.error "404 model not supported")
    (.error "fallback broke")).2.2 "404 model not supported" rfl (by rfl)
  exact ⟨h.2.2 "fallback broke" rfl, h.1⟩

/-- An analysis result with no recorded files. -/
def emptyAnalyzeResult : AnalyzeResult :=
  { repo := "https://github.com/o/r", files := [],
    structure_summary := "Analyzed 0 supported files." }

/-- C3: when the narrative generator is absent (no API key configured) or
its call raises, `generate_architecture_summary` and `generate_mermaid`
return the labelled placeholder strings instead of raising, and a job whose
acquisition and extraction succeeded still reaches `completed` with those
placeholders as its artifacts. -/
theorem narrative_failure_yields_placeholders (g : AnalyzeResult)
    (prov : Provider) (files : List LlmFileEntry) (ctx e : String)
    (primary fallback openaiResp : Except String String) :
    (generate_architecture_summary none files primary fallback openaiResp =
        .ok mockNoKeySummary ∧
      generate_mermaid none files primary fallback openaiResp = .ok get_mock_mermaid) ∧
    (buildFileContext files = .ok ctx →
      llmCall prov primary fallback openaiResp = .error e →
      generate_architecture_summary (some prov) files primary fallback openaiResp =
          .ok (summaryErrorFallback e) ∧
        generate_mermaid (some prov) files primary fallback openaiResp =
          .ok get_mock_mermaid) ∧
    (runPipeline (.ok g) none primary fallback openaiResp =
        .ok { graph := g, summary := mockNoKeySummary, mermaid := get_mock_mermaid } ∧
      (jobStateAt (.ok { graph := g, summary := mockNoKeySummary, mermaid := get_mock_mermaid }) 3).status = "completed") ∧
    (buildFileContext (toLlmEntries g.files) = .ok ctx →
      llmCall prov primary fallback openaiResp = .error e →
      runPipeline (.ok g) (some prov) primary fallback openaiResp =
        .ok { graph := g, summary := summaryErrorFallback e,
              mermaid := get_mock_mermaid }) := by
  refine ⟨⟨rfl, rfl⟩, ?_, ⟨rfl, rfl⟩, ?_⟩
  · intro hctx hcall
    constructor
    · simp [generate_architecture_summary, hctx, hcall]
    · simp [generate_mermaid, hctx, hcall]
  · intro hctx hcall
    simp [runPipeline, generate_architecture_summary, generate_mermaid, hctx, hcall]

/-- Concrete instance of `narrative_failure_yields_placeholders`: with no
provider the placeholders are returned, and with Gemini configured but both
model calls failing the job's pipeline still completes with the placeholder
artifacts. -/
theorem narrative_failure_yields_placeholders_witness :
    generate_architecture_summary none [] (.error "a") (.error "b") (.error "c") =
      .ok mockNoKeySummary ∧
    generate_mermaid (some .gemini) [] (.error "404 oops") (.error "b") (.error "c") =
      .ok get_mock_mermaid ∧
    runPipeline (.ok emptyAnalyzeResult) (some .gemini) (.error "404 oops") (.error "b")
        (.error "c") =
      .ok { graph := emptyAnalyzeResult, summary := summaryErrorFallback "404 oops",
            mermaid := get_mock_mermaid } := by
  have h1 := narrative_failure_yields_placeholders emptyAnalyzeResult .gemini [] "" "404 oops"
    (.error "a") (.error "b") (.error "c")
  have h2 := narrative_failure_yields_placeholders emptyAnalyzeResult .gemini [] "" "404 oops"
    (.error "404 oops") (.error "b") (.error "c")
  exact ⟨h1.1.1, (h2.2.1 rfl (by rfl)).2, h2.2.2.2 rfl (by rfl)⟩

/-! ## Ephemeral-directory cleanup (`clone_repo` / `analyze_repo`) -/

/-- One file-system entry inside the temp directory; `readonly` marks an
entry that resists plain deletion (the read-only attribute the source's
"Robust cleanup for Windows" comment targets). -/
structure FsEntry where
  path : String
  readonly : Bool
  deriving Repr, DecidableEq

structure TempDirState where
  present : Bool
  entries : List FsEntry
  deriving Repr, DecidableEq

/-- Attempt to delete one entry: `none` = removed, `some e` = the entry
resisted and deletion raised. -/
def deleteEntry (e : FsEntry) : Option FsEntry :=
  if e.readonly then some e else none

/-- `os.chmod(path, 0o777)` (parser.py:102). -/
def clearReadonly (e : FsEntry) : FsEntry := { e with readonly := false }

/-- `remove_readonly` (parser.py:100-103): clear the read-only attribute,
then retry the removal. -/
def remove_readonly (e : FsEntry) : Option FsEntry :=
  deleteEntry (clearReadonly e)

/-- `shutil.rmtree` with an error handler: entries that resist plain
deletion are handed to the handler; the survivors are what the handler
could not delete either.  Second component: `true` iff removal finished
with no unhandled error (for the handler-less form the handler is `some`,
i.e. the error propagates and the directory survives). -/
def rmtreeWithHandler (handler : FsEntry → Option FsEntry) (st : TempDirState) :
    TempDirState × Bool :=
  let survivors := st.entries.filterMap fun e =>
    match deleteEntry e with
    | none => none
    | some e' => handler e'
  if survivors.isEmpty then ({ present := false, entries := [] }, true)
  else ({ present := true, entries := survivors }, false)

/-- Plain `shutil.rmtree(temp_dir)` (parser.py:23): no handler. -/
def rmtreePlain (st : TempDirState) : TempDirState × Bool :=
  rmtreeWithHandler some st

/-- `shutil.rmtree(temp_dir, onerror=remove_readonly)` (parser.py:127). -/
def rmtreeRobust (st : TempDirState) : TempDirState × Bool :=
  rmtreeWithHandler remove_readonly st

/-- The outcome of `git.Repo.clone_from`: the cloned working tree's entries
on success, or an error message plus whatever partial entries the failed
clone left in the temp directory. -/
inductive CloneOutcome where
  | success (entries : List FsEntry)
  | failure (msg : String) (leftover : List FsEntry)
  deriving Repr, DecidableEq

/-- `clone_repo` (parser.py:9-24): make the temp dir, clone into it; on a
clone error remove the directory with a PLAIN `rmtree` and re-raise.  When
that plain removal itself raises (a resisting leftover entry), ITS
exception propagates instead of the clone error and the directory stays. -/
def clone_repo (out : CloneOutcome) : Except String (List FsEntry) × TempDirState :=
  match out with
  | .success es => (.ok es, { present := true, entries := es })
  | .failure msg leftover =>
    let r := rmtreePlain { present := true, entries := leftover }
    if r.2 then (.error msg, r.1)
    else (.error "PermissionError during cleanup", r.1)

/-- The resource behaviour of `analyze_repo` (parser.py:105-133): on clone
success the walk runs inside `try` (its outcome is a parameter, so a raise
during walking or per-file extraction is covered) and the `finally` removes
the directory with the `remove_readonly` handler; the walk's result or
exception passes through after the cleanup. -/
def analyze_repo_run (out : CloneOutcome)
    (walkResult : Except String (List FileRecord)) :
    Except String (List FileRecord) × TempDirState :=
  match clone_repo out with
  | (.error e, st) => (.error e, st)
  | (.ok _, st) => (walkResult, (rmtreeRobust st).1)

/-- C6 counterexample: when the clone itself fails and leaves a read-only
entry behind (e.g. a partially written pack file), the clone-failure
cleanup path uses the plain `rmtree` without the read-only handler: the
directory survives, and the surfaced error is the removal error rather
than the clone error. -/
theorem clone_failure_readonly_cleanup_cex :
    (analyze_repo_run
        (.failure "clone failed" [{ path := ".git/objects/pack/tmp.idx", readonly := true }])
        (.ok [])).2.present = true ∧
    (analyze_repo_run
        (.failure "clone failed" [{ path := ".git/objects/pack/tmp.idx", readonly := true }])
        (.ok [])).1 = .error "PermissionError during cleanup" := by
  exact ⟨rfl, rfl⟩

/-- C6 (amended): the ephemeral directory is removed on the success path
and when walking/extraction raises — there the removal clears the
read-only attribute of every resisting entry and retries, so read-only
version-control metadata never prevents cleanup; on the clone-failure path
the removal is the plain one, so the directory is removed exactly when no
leftover entry resists deletion, and only then is the clone's own error
surfaced. -/
theorem cleanup_removal_paths (es leftover : List FsEntry) (msg : String)
    (walkResult : Except String (List FileRecord)) :
    ((analyze_repo_run (.success es) walkResult).2.present = false) ∧
    ((analyze_repo_run (.success es) walkResult).1 = walkResult) ∧
    (∀ e : FsEntry, remove_readonly e = none) ∧
    (leftover.all (fun e => !e.readonly) = true →
      (analyze_repo_run (.failure msg leftover) walkResult).2.present = false ∧
      (analyze_repo_run (.failure msg leftover) walkResult).1 = .error msg) := by
  have hrem : ∀ e : FsEntry, remove_readonly e = none := fun e => rfl
  have hrobust : ∀ l : List FsEntry,
      (l.filterMap fun e =>
        match deleteEntry e with
        | none => none
        | some e' => remove_readonly e') = ([] : List FsEntry) := by
    intro l
    apply List.filterMap_eq_nil_iff.mpr
    intro e he
    cases hro : e.readonly
    · simp [deleteEntry, hro]
    · simp [deleteEntry, hro, remove_readonly, clearReadonly]
  refine ⟨?_, ?_, hrem, ?_⟩
  · simp [analyze_repo_run, clone_repo, rmtreeRobust, rmtreeWithHandler, hrobust]
  · simp [analyze_repo_run, clone_repo, rmtreeRobust, rmtreeWithHandler, hrobust]
  · intro hall
    have hclean : (leftover.filterMap fun e =>
        match deleteEntry e with
        | none => none
        | some e' => some e') = ([] : List FsEntry) := by
      apply List.filterMap_eq_nil_iff.mpr
      intro e he
      have h' := List.all_eq_true.mp hall e he
      have hro : e.readonly = false := by simpa using h'
      simp [deleteEntry, hro]
    constructor
    · simp [analyze_repo_run, clone_repo, rmtreePlain, rmtreeWithHandler, hclean]
    · simp [analyze_repo_run, clone_repo, rmtreePlain, rmtreeWithHandler, hclean]

/-- Concrete instance of `cleanup_removal_paths`: a successful clone with a
read-only metadata entry is still fully cleaned up, and a failed clone
whose leftovers are all writable is cleaned up with the clone error
surfaced. -/
theorem cleanup_removal_paths_witness :
    (analyze_repo_run (.success [{ path := ".git/objects/pack/p.idx", readonly := true }])
        (.ok [])).2.present = false ∧
    (analyze_repo_run (.failure "network down" [{ path := "README.md", readonly := false }])
        (.ok [])).1 = .error "network down" := by
  have h := cleanup_removal_paths [{ path := ".git/objects/pack/p.idx", readonly := true }]
    [{ path := "README.md", readonly := false }] "network down" (.ok [])
  exact ⟨h.1, (h.2.2.2 (by rfl)).2⟩

/-! ## Repository reference handling (`analyze_repository` → `clone_repo`) -/

inductive NetworkAction where
  | cloneAttempt (url : String)
  deriving Repr, DecidableEq

/-- The auth-URL computation of `clone_repo` (parser.py:13-17): a non-empty
token is spliced in whenever the URL contains "github.com" (Python's
`if token` truthiness makes an empty token a no-op); every other URL is
used verbatim. -/
def authUrl (repoUrl : String) (token : Option String) : String :=
  match token with
  | some t =>
    if !t.isEmpty && pyContains repoUrl "github.com" then
      repoUrl.replace "https://" ("https://" ++ t ++ "@")
    else repoUrl
  | none => repoUrl

/-- The first network I/O a submitted URL reaches.  Nothing in
`analyze_repository` (main.py:81-90), `process_repo_task`, or
`analyze_repo` inspects the URL's shape: every input string flows to
`git.Repo.clone_from(auth_url, …)` (parser.py:20). -/
def submitCloneAction (repoUrl : String) (token : Option String) : NetworkAction :=
  .cloneAttempt (authUrl repoUrl token)

/-- C8 counterexample: the malformed input `"not a url"` (not of the form
`<host>/<owner>/<name>`) is not rejected and no `InvalidReference` exists
anywhere in the backend — the string is handed verbatim to the clone
transport, i.e. network I/O is performed on the malformed URL. -/
theorem malformed_url_not_rejected_cex :
    submitCloneAction "not a url" none = .cloneAttempt "not a url" := rfl

/-- C8 (amended): the backend performs no URL-shape validation: every input
string — well-formed or not — is passed to the clone transport (verbatim
without a token, or verbatim when the URL does not mention github.com),
and a malformed URL surfaces only as a failed clone that drives the job to
`failed` carrying the transport's error message. -/
theorem url_passed_to_clone_unvalidated (url emsg t : String) :
    (submitCloneAction url none = .cloneAttempt url) ∧
    (pyContains url "github.com" = false →
      submitCloneAction url (some t) = .cloneAttempt url) ∧
    ((jobStateAt (.error emsg) 3).status = "failed" ∧
      (jobStateAt (.error emsg) 3).error = some emsg) := by
  refine ⟨rfl, ?_, rfl, rfl⟩
  intro h
  simp [submitCloneAction, authUrl, h]

/-- Concrete instance of `url_passed_to_clone_unvalidated` at the malformed
input "not-a-repo" with a token supplied. -/
theorem url_passed_to_clone_unvalidated_witness :
    submitCloneAction "not-a-repo" (some "tok") = .cloneAttempt "not-a-repo" ∧
    (jobStateAt (.error "git clone failed") 3).status = "failed" :=
  ⟨(url_passed_to_clone_unvalidated "not-a-repo" "git clone failed" "tok").2.1 (by rfl),
   (url_passed_to_clone_unvalidated "not-a-repo" "git clone failed" "tok").2.2.1⟩

/-! ## API-tree acquisition strategy (absent from src/) -/

/-- Python's `s.split("/")` on the character list (single-character
separator), matching CPython's semantics including empty pieces. -/
def splitSlash : List Char → List (List Char)
  | [] => [[]]
  | c :: cs =>
    let r := splitSlash cs
    if c == '/' then [] :: r
    else
      match r with
      | [] => [[c]]
      | s :: rest => (c :: s) :: rest

/-- The `/`-separated segments of a path. -/
def pathSegments (p : String) : List String :=
  (splitSlash p.data).map String.mk

/-- Modelled from the spec: one entry of the recursive tree listing used by
the API-tree acquisition strategy, which is not present in src/ (only the
clone-and-walk strategy is implemented in `backend/core/parser.py`);
spec §4.2 (API-tree strategy) and §6 describe it. -/
structure TreeEntry where
  path : String
  entryType : String
  deriving Repr, DecidableEq

structure ApiFileRecord where
  path : String
  content : String
  deriving Repr, DecidableEq

/-- Modelled from the spec: the allow-list of source and markup extensions
of spec §4.2 step 3 (the exact list is not given; the theorem does not
depend on it). -/
def apiAllowedExts : List String :=
  [".py", ".js", ".jsx", ".ts", ".tsx", ".md", ".html", ".css", ".json"]

/-- Modelled from the spec: vendor/build/version-control directory segments
dropped by spec §4.2 step 3. -/
def apiExcludedSegments : List String :=
  ["node_modules", ".git", "dist", "build", "vendor"]

def apiAllowedExt (p : String) : Bool :=
  apiAllowedExts.any fun ext => strEndsWith p ext

/-- Does the path contain a vendor/build/version-control directory
segment? -/
def hasExcludedSegment (p : String) : Bool :=
  (pathSegments p).any fun seg => apiExcludedSegments.contains seg

/-- Modelled from the spec: filtering and truncation of the tree listing,
spec §4.2 steps 3-4 — keep blob entries with allow-listed extensions and no
excluded path segment, then truncate to the first 30 entries in tree
order. -/
def apiFilterTree (entries : List TreeEntry) : List TreeEntry :=
  (entries.filter fun e =>
    e.entryType == "blob" && apiAllowedExt e.path && !hasExcludedSegment e.path).take 30

/-- Modelled from the spec: the API-tree acquisition (spec §4.2 steps 3-6),
over the per-blob fetch+decode outcome `blobText` (`none` models a per-file
decode failure, which drops only that file). -/
def apiAcquire (entries : List TreeEntry) (blobText : String → Option String) :
    List ApiFileRecord :=
  (apiFilterTree entries).filterMap fun e =>
    match blobText e.path with
    | some t => some { path := e.path, content := t }
    | none => none

/-- C9: the API-tree acquisition returns at most 30 records, and none of
the returned records' paths contains a vendor/build/version-control
directory segment. -/
theorem api_acquire_cap_and_excluded (entries : List TreeEntry)
    (blobText : String → Option String) :
    (apiAcquire entries blobText).length ≤ 30 ∧
    ∀ r ∈ apiAcquire entries blobText, hasExcludedSegment r.path = false := by
  constructor
  · have h1 : (apiAcquire entries blobText).length ≤ (apiFilterTree entries).length :=
      List.length_filterMap_le _ _
    have h2 : (apiFilterTree entries).length ≤ 30 := by
      unfold apiFilterTree
      exact List.length_take_le _ _
    exact le_trans h1 h2
  · intro r hr
    rcases List.mem_filterMap.mp hr with ⟨e, he, hblob⟩
    have he' := List.mem_of_mem_take he
    have hf := List.of_mem_filter he'
    cases hb : blobText e.path with
    | none =>
      rw [hb] at hblob
      exact Option.noConfusion hblob
    | some t =>
      rw [hb] at hblob
      cases hblob
      simp only [Bool.and_eq_true, Bool.not_eq_true'] at hf
      exact hf.2

/-- Concrete instance of `api_acquire_cap_and_excluded` on a small tree
listing: the surviving record's path has no excluded segment. -/
theorem api_acquire_cap_and_excluded_witness :
    (apiAcquire
        [{ path := "src/app.py", entryType := "blob" },
         { path := "node_modules/x/index.js", entryType := "blob" },
         { path := "docs", entryType := "tree" }] (fun _ => some "text")).length ≤ 30 ∧
    hasExcludedSegment
      ({ path := "src/app.py", content := "text" } : ApiFileRecord).path = false := by
  have h := api_acquire_cap_and_excluded
    [{ path := "src/app.py", entryType := "blob" },
     { path := "node_modules/x/index.js", entryType := "blob" },
     { path := "docs", entryType := "tree" }] (fun _ => some "text")
  refine ⟨h.1, h.2 _ ?_⟩
  exact List.mem_singleton.mpr rfl
